import Mathlib

/-!
Verification development for the repository-matching and progress-scoring
engine of `src/app.py` (C4 Repository Analytics).  Python strings are
embedded as `List Char`; Python dicts appearing in the engine are embedded
as association lists or as explicitly updated functions; pandas data frames
are embedded as a column list plus rows of cells; `Option` models key
absence / `None`.  Python's `str.lower` is modelled on its ASCII fragment
(the only characters the engine compares are ASCII).
-/

namespace C4A

/-- Python strings, embedded as lists of characters. -/
abbrev Str := List Char

/-- Converts a Lean string literal to the embedding type. -/
def str (s : String) : Str := s.data

/-- The ASCII uppercase→lowercase table of Python's `str.lower`. -/
def upperLowerTable : List (Char × Char) :=
  [('A', 'a'), ('B', 'b'), ('C', 'c'), ('D', 'd'), ('E', 'e'), ('F', 'f'),
   ('G', 'g'), ('H', 'h'), ('I', 'i'), ('J', 'j'), ('K', 'k'), ('L', 'l'),
   ('M', 'm'), ('N', 'n'), ('O', 'o'), ('P', 'p'), ('Q', 'q'), ('R', 'r'),
   ('S', 's'), ('T', 't'), ('U', 'u'), ('V', 'v'), ('W', 'w'), ('X', 'x'),
   ('Y', 'y'), ('Z', 'z')]

/-- ASCII fragment of Python's per-character lowercasing. -/
def lowerChar (c : Char) : Char :=
  match upperLowerTable.find? (fun p => p.1 = c) with
  | some p => p.2
  | none => c

/-- Python `s.lower()` (ASCII fragment). -/
def pyLower (s : Str) : Str := s.map lowerChar

/-- Python `s.rstrip('/')`: removes every trailing `'/'`. -/
def pyRstripSlash (s : Str) : Str := (s.reverse.dropWhile (fun c => c = '/')).reverse

/-- ASCII letter test, as used by `urllib.parse` for the scheme's first character. -/
def isAsciiAlpha (c : Char) : Bool :=
  ('a' ≤ c ∧ c ≤ 'z') ∨ ('A' ≤ c ∧ c ≤ 'Z')

/-- Characters allowed in a URL scheme by `urllib.parse` (`scheme_chars`). -/
def isSchemeChar (c : Char) : Bool :=
  isAsciiAlpha c ∨ ('0' ≤ c ∧ c ≤ '9') ∨ c = '+' ∨ c = '-' ∨ c = '.'

/-- The `_UNSAFE_URL_BYTES_TO_REMOVE` step of `urllib.parse.urlsplit`: every
tab, carriage return and line feed is removed from the URL before parsing. -/
def stripUnsafeBytes (url : Str) : Str :=
  url.filter (fun c => ¬(c = '\t' ∨ c = '\r' ∨ c = '\n'))

/-- The scheme step of `urllib.parse.urlsplit`: when the text before the first
`':'` is a well-formed scheme (nonempty, ASCII letter first, scheme characters
only), it is split off and lowercased; otherwise the scheme defaults to the
empty string and the URL is unchanged.  Returns `(scheme, remainder)`. -/
def splitScheme (url : Str) : Str × Str :=
  match url.findIdx? (fun c => c = ':') with
  | some i =>
    let headAlpha : Bool := match url.head? with | some c => isAsciiAlpha c | none => false
    if 0 < i ∧ ((url.take i).all isSchemeChar && headAlpha)
    then ((url.take i).map lowerChar, url.drop (i + 1)) else ([], url)
  | none => ([], url)

/-- The schemes for which `urllib.parse.urlparse` splits path parameters
(`uses_params`, CPython 3.11). -/
def usesParamsList : List Str :=
  [str "", str "ftp", str "hdl", str "prospero", str "http", str "imap",
   str "https", str "shttp", str "rtsp", str "rtsps", str "rtspu", str "sip",
   str "sips", str "mms", str "sftp", str "tel"]

/-- The netloc step of `urlsplit`: when the remainder starts with `"//"`, the
netloc is everything after it up to the first of `'/'`, `'?'`, `'#'`. -/
def splitNetloc (url : Str) : Str × Str :=
  if url.take 2 = ['/', '/'] then
    let body := url.drop 2
    (body.takeWhile (fun c => ¬(c = '/' ∨ c = '?' ∨ c = '#')),
     body.dropWhile (fun c => ¬(c = '/' ∨ c = '?' ∨ c = '#')))
  else ([], url)

/-- Python `s.find(c, start)`, restricted to a found result. -/
def findIdxFrom (s : Str) (c : Char) (start : Nat) : Option Nat :=
  ((s.drop start).findIdx? (fun d => d = c)).map (fun j => j + start)

/-- Index of the last `'/'` in `s` (Python `s.rfind('/')`); only used when a
slash is present. -/
def rlastSlashIdx (s : Str) : Nat :=
  match s.reverse.findIdx? (fun c => c = '/') with
  | some j => s.length - 1 - j
  | none => 0

/-- The params-splitting step of `urllib.parse.urlparse` (`_splitparams`) applied
to the path: cut at the first `';'` of the last path segment. -/
def splitParams (p : Str) : Str :=
  if '/' ∈ p then
    match findIdxFrom p ';' (rlastSlashIdx p) with
    | some i => p.take i
    | none => p
  else
    match p.findIdx? (fun c => c = ';') with
    | some i => p.take i
    | none => p

/-- The `netloc` and `path` components of `urllib.parse.urlparse` (the only two
components the engine reads).  Not modelled: the `ValueError` raised by
`urlsplit` on a netloc with an unmatched (or, since 3.11, non-IP-literal)
bracket, and the NFKC check that can raise on non-ASCII netlocs — theorems
about non-raising behaviour therefore restrict their inputs to bracket-free
ASCII strings, on which the real function provably does not raise. -/
structure PySplit where
  netloc : Str
  path : Str
deriving Repr, DecidableEq

/-- `urllib.parse.urlparse`, restricted to the components used by `app.py`:
tab/CR/LF removal, scheme split, netloc split, fragment and query cut, and the
params cut guarded by `scheme in uses_params and ';' in url`. -/
def urlparseNP (url : Str) : PySplit :=
  let u0 := stripUnsafeBytes url
  let sp := splitScheme u0
  let pr := splitNetloc sp.2
  let u3 := pr.2.takeWhile (fun c => c ≠ '#')
  let u4 := u3.takeWhile (fun c => c ≠ '?')
  ⟨pr.1, if sp.1 ∈ usesParamsList ∧ ';' ∈ u4 then splitParams u4 else u4⟩

/-- URL normalization as written (twice, identically) in `match_repositories`:
`f"{parsed_url.netloc}{parsed_url.path}".rstrip('/').lower()`. -/
def normalizeUrl (raw : Str) : Str :=
  let p := urlparseNP raw
  pyLower (pyRstripSlash (p.netloc ++ p.path))

/-- A metadata link of an element.  `none` models an absent key in the JSON
object (`'title' in link` / `'url' in link` tests). -/
structure Link where
  title : Option Str := none
  url : Option Str := none
deriving Repr, DecidableEq

/-- An element entry of the architecture document.  `none` models an absent
key; `id` is absent until `extract_elements` injects it. -/
structure PyElement where
  id : Option Str := none
  kind : Option Str := none
  title : Option Str := none
  technology : Option Str := none
  description : Option Str := none
  links : Option (List Link) := none
deriving Repr, DecidableEq

/-- The `specification` sub-object of the architecture document. -/
structure SpecificationObj where
  elements : Option (List (Str × PyElement)) := none
deriving Repr, DecidableEq

/-- The architecture document: element mappings (in insertion order) may sit at
the top level or under `specification`; `none` models an absent key. -/
structure ArchDoc where
  elements : Option (List (Str × PyElement)) := none
  specification : Option SpecificationObj := none
deriving Repr, DecidableEq

/-- The loop body of `extract_elements` over one elements mapping: collects the
entries whose `kind` is in `target_kinds` (setting `element_data['id'] =
element_id` on the shared dict) and also returns the mapping as it stands
after the loop — in Python the collected dicts and the mapping's dicts are the
same mutated objects. -/
def processEntries (entries : List (Str × PyElement)) (target_kinds : List Str) :
    List PyElement × List (Str × PyElement) :=
  match entries with
  | [] => ([], [])
  | (k, e) :: rest =>
    let tail := processEntries rest target_kinds
    match e.kind with
    | some kd =>
      if kd ∈ target_kinds then
        let e' := { e with id := some k }
        (e' :: tail.1, (k, e') :: tail.2)
      else (tail.1, (k, e) :: tail.2)
    | none => (tail.1, (k, e) :: tail.2)

/-- `extract_elements(c4_data, target_kinds)`: returns the collected element
list and the document as it stands after the call (second component), since
the Python loop writes `element_data['id']` into the document's dicts.
`none` for the document models `c4_data = None`. -/
def extract_elements (c4_data : Option ArchDoc) (target_kinds : List Str) :
    List PyElement × Option ArchDoc :=
  match c4_data with
  | none => ([], none)
  | some d =>
    match d.elements with
    | some m =>
      let pr := processEntries m target_kinds
      (pr.1, some { d with elements := some pr.2 })
    | none =>
      match d.specification with
      | some s =>
        match s.elements with
        | some m =>
          let pr := processEntries m target_kinds
          (pr.1, some { d with specification := some { s with elements := some pr.2 } })
        | none => ([], some d)
      | none => ([], some d)

/-- `element['links']` with the truthiness guard of the source collapsed:
an absent `links` key behaves like an empty list in every use site. -/
def linksOf (e : PyElement) : List Link :=
  match e.links with
  | some l => l
  | none => []

/-- Keys of a Python dict built by a comprehension over `kinds`: first
occurrences, in insertion order. -/
def pyDedupKeys (kinds : List Str) : List Str :=
  kinds.foldl (fun acc k => if k ∈ acc then acc else acc ++ [k]) []

/-- Python dict item assignment `d[k] = v` on an association list: updates the
entry in place if the key exists, appends otherwise. -/
def pySetItem (d : List (Str × Bool)) (k : Str) (v : Bool) : List (Str × Bool) :=
  if k ∈ d.map Prod.fst then
    d.map (fun p => if p.1 = k then (p.1, v) else p)
  else d ++ [(k, v)]

/-- Python dict lookup: `some` iff the key is present. -/
def pyLookup (d : List (Str × Bool)) (k : Str) : Option Bool :=
  (d.find? (fun p => p.1 = k)).map Prod.snd

/-- `check_element_links(element, link_types)`: every requested kind starts
`False`; each link whose `title` is among the requested kinds sets its flag. -/
def check_element_links (e : PyElement) (link_types : List Str) : List (Str × Bool) :=
  (linksOf e).foldl
    (fun d link =>
      match link.title with
      | some t => if t ∈ link_types then pySetItem d t true else d
      | none => d)
    ((pyDedupKeys link_types).map (fun k => (k, false)))

/-- `get_repository_url(element)`: the `url` value of the first link whose
title is `"repository"` and which has a `url` key — the value itself may be the
empty string. -/
def get_repository_url (e : PyElement) : Option Str :=
  (linksOf e).findSome? (fun link =>
    if link.title = some (str "repository") ∧ link.url.isSome then link.url else none)

/-- The uploaded CSV as pandas holds it: a shared column list and one cell
list per row (cells are embedded as strings; `NaN` cells are not modelled). -/
structure CsvData where
  columns : List Str
  rows : List (List Str)
deriving Repr, DecidableEq

/-- Label-based cell access on one row (`label in row` is `isSome`). -/
def getCell (csv : CsvData) (row : List Str) (label : Str) : Option Str :=
  match csv.columns.findIdx? (fun c => c = label) with
  | some i => row.get? i
  | none => none

/-- pandas `row.get(label, default)`. -/
def rowGet (csv : CsvData) (row : List Str) (label : Str) (dflt : Str) : Str :=
  match getCell csv row label with
  | some v => v
  | none => dflt

/-- The URL-column search of `match_repositories` (and of the unmatched-rows
loop): the first column whose lowercased name is `"url"`. -/
def findUrlColumn (csv : CsvData) : Option Str :=
  csv.columns.find? (fun c => pyLower c = str "url")

/-- The `element_repos` dict of `match_repositories` as a lookup function:
each element exposing a truthy repository URL is stored under its normalized
identity, later elements overwriting earlier ones. -/
def elementRepos (elements : List PyElement) : Str → Option PyElement :=
  elements.foldl
    (fun d e =>
      match get_repository_url e with
      | some u =>
        if u ≠ [] then (fun k => if k = normalizeUrl u then some e else d k) else d
      | none => d)
    (fun _ => none)

/-- One entry of the `matches` list: `{'csv_repo': row, 'c4_element': element}`. -/
structure MatchPair where
  csv_repo : List Str
  c4_element : PyElement
deriving Repr, DecidableEq

/-- `match_repositories(elements, csv_data)`: rows whose normalized URL-column
value hits the identity map produce a pair; without a URL column the result is
empty. -/
def match_repositories (elements : List PyElement) (csv : CsvData) : List MatchPair :=
  match findUrlColumn csv with
  | none => []
  | some urlCol =>
    let repos := elementRepos elements
    csv.rows.filterMap (fun row =>
      match getCell csv row urlCol with
      | some cell =>
        if cell ≠ [] then
          match repos (normalizeUrl cell) with
          | some e => some ⟨row, e⟩
          | none => none
        else none
      | none => none)

/-- One row of `progress_data` (the presentational `Links`/`Progress %`
strings are carried as the `present`/`total` numbers they are formatted
from). -/
structure ScoreRec where
  repository : Str
  element : Str
  present : Nat
  total : Nat
  progress : ℚ
  status : Str
deriving Repr, DecidableEq

/-- The monitoring→monitor alias step of the progress loop: when the flag
dictionary has a true `"monitoring"` entry and `"monitor"` is among the
selected link kinds, the `"monitor"` entry is forced true. -/
def aliasedLinkInfo (e : PyElement) (selected : List Str) : List (Str × Bool) :=
  match pyLookup (check_element_links e selected) (str "monitoring") with
  | some true =>
    if str "monitor" ∈ selected then
      pySetItem (check_element_links e selected) (str "monitor") true
    else check_element_links e selected
  | _ => check_element_links e selected

/-- The matched branch of the progress loop: `check_element_links` over the
selected links, the monitoring→monitor alias step, the present/total counts,
the guarded percentage and the Complete/Incomplete status. -/
def scoreMatched (e : PyElement) (csvRepoUrl : Str) (selected : List Str) : ScoreRec :=
  let info := aliasedLinkInfo e selected
  let presentN : Nat := (info.filter (fun p => p.2 && decide (p.1 ∈ selected))).length
  let totalN : Nat := selected.length
  let pct : ℚ := if totalN > 0 then (presentN : ℚ) / (totalN : ℚ) * 100 else 0
  { repository := csvRepoUrl
    element := (match e.title with | some t => t | none => [])
    present := presentN
    total := totalN
    progress := pct
    status := if presentN = totalN then str "Complete" else str "Incomplete" }

/-- `progress_data`: the matched records (the matched set keyed by the literal
lowercase `'url'` label, as in `match['csv_repo'].get('url', '')`) followed by
a `Not mapped` record for every row with a truthy URL not in that set. -/
def progressData (elements : List PyElement) (csv : CsvData) (selected : List Str) :
    List ScoreRec :=
  let matchList := match_repositories elements csv
  let matchedUrls := matchList.map (fun m => rowGet csv m.csv_repo (str "url") [])
  let matchedRecs := matchList.map (fun m =>
    scoreMatched m.c4_element (rowGet csv m.csv_repo (str "url") []) selected)
  let unmatchedRecs :=
    match findUrlColumn csv with
    | some urlCol =>
      csv.rows.filterMap (fun row =>
        if rowGet csv row urlCol [] ≠ [] ∧ rowGet csv row urlCol [] ∉ matchedUrls then
          some { repository := rowGet csv row urlCol [], element := str "Not mapped in C4",
                 present := 0, total := 0, progress := 0, status := str "Not mapped" }
        else none)
    | none => []
  matchedRecs ++ unmatchedRecs

/-- Number of records of `recs` carrying status `s` (the
`sum(1 for p in progress_data if p['Status'] == ...)` aggregates). -/
def countStatus (recs : List ScoreRec) (s : Str) : Nat :=
  (recs.filter (fun r => r.status = s)).length

/-- Whether `needle` starts `hay` (character-wise). -/
def leadsWith : Str → Str → Bool
  | [], _ => true
  | _ :: _, [] => false
  | c :: cs, d :: ds => c = d && leadsWith cs ds

/-- Case-insensitive substring test, as pandas
`Series.str.contains(term, case=False)` behaves on plain (non-regex-special)
terms. -/
def containsCI (hay needle : Str) : Bool :=
  (List.range (hay.length + 1)).any (fun i => leadsWith (pyLower needle) ((pyLower hay).drop i))

/-- The filter controls of the repositories table. -/
structure FilterSpec where
  status : Str
  minProgress : ℚ
  maxProgress : ℚ
  searchTerm : Str
  elementSearch : Str
deriving Repr, DecidableEq

/-- The filter pipeline applied to `progress_df`: status equality unless
`'All'`, then the inclusive progress range, then the two case-insensitive
substring searches (each search skipped when its term is empty). -/
def applyFilters (f : FilterSpec) (recs : List ScoreRec) : List ScoreRec :=
  let r1 := if f.status ≠ str "All" then recs.filter (fun r => r.status = f.status) else recs
  let r2 := r1.filter (fun r => f.minProgress ≤ r.progress ∧ r.progress ≤ f.maxProgress)
  let r3 := if f.searchTerm ≠ [] then r2.filter (fun r => containsCI r.repository f.searchTerm) else r2
  if f.elementSearch ≠ [] then r3.filter (fun r => containsCI r.element f.elementSearch) else r3

/-- The report as assembled for display: the filtered row list (display
ordering is presentational and not modelled) together with the aggregate
status counts, which the source computes from the unfiltered
`progress_data`. -/
def assembleReport (elements : List PyElement) (csv : CsvData) (selected : List Str)
    (f : FilterSpec) : List ScoreRec × Nat × Nat × Nat :=
  let pd := progressData elements csv selected
  (applyFilters f pd,
   countStatus pd (str "Complete"),
   countStatus pd (str "Incomplete"),
   countStatus pd (str "Not mapped"))

/-- Whether the element declares some link titled `k`. -/
def hasLinkB (e : PyElement) (k : Str) : Bool :=
  (linksOf e).any (fun link => link.title = some k)

/-- The last element of the sequence exposing a truthy repository URL whose
normalized identity is `key` — the element the last-wins identity map is
claimed to keep. -/
def lastRepoMatch (elements : List PyElement) (key : Str) : Option PyElement :=
  match elements with
  | [] => none
  | e :: rest =>
    match lastRepoMatch rest key with
    | some x => some x
    | none =>
      match get_repository_url e with
      | some u => if u ≠ [] ∧ key = normalizeUrl u then some e else none
      | none => none

/-- Fixture: an element whose only link is titled `"monitoring"`. -/
def exElemMonitoring : PyElement :=
  { links := some [{ title := some (str "monitoring") }] }

/-- Fixture: an element whose first repository link has an empty `url` value
and whose second has a nonempty one. -/
def exElemEmptyRepoUrl : PyElement :=
  { links := some [{ title := some (str "repository"), url := some [] },
                   { title := some (str "repository"), url := some (str "x") }] }

/-- Fixture: an element whose only link is a repository link with an empty
`url` value. -/
def exElemOnlyEmptyRepoUrl : PyElement :=
  { links := some [{ title := some (str "repository"), url := some [] }] }

/-- Fixture: a service element exposing repository URL `https://x.com/a`. -/
def exElemOrders : PyElement :=
  { kind := some (str "service"), title := some (str "Orders"),
    links := some [{ title := some (str "repository"), url := some (str "https://x.com/a") }] }

/-- Fixture: a CSV whose URL column is named `"URL"` (uppercase), one row,
matching `exElemOrders`. -/
def exCsvUpper : CsvData := { columns := [str "URL"], rows := [[str "https://x.com/a"]] }

/-- Fixture: a CSV with a lowercase `"url"` column and two nonempty rows, the
first matching `exElemOrders`. -/
def exCsvLower : CsvData :=
  { columns := [str "url"], rows := [[str "https://x.com/a"], [str "https://y.com/b"]] }

/-- Fixture: a document with a single service entry (no `id` field). -/
def exDoc : ArchDoc :=
  { elements := some [(str "a", { kind := some (str "service") })] }

/-- Fixture: a document whose single service entry sits under
`specification.elements` (no top-level `elements` mapping). -/
def exDocSpec : ArchDoc :=
  { specification := some ⟨some [(str "b", { kind := some (str "service") })]⟩ }

/-- Fixture: the default filter state (status `All`, full progress range, no
search terms). -/
def exFilterAll : FilterSpec :=
  { status := str "All", minProgress := 0, maxProgress := 100,
    searchTerm := [], elementSearch := [] }

/-- Fixture: two elements whose repository URLs share one normalized
identity. -/
def exElemFirst : PyElement :=
  { title := some (str "first"),
    links := some [{ title := some (str "repository"), url := some (str "https://x.com/a") }] }

/-- Fixture: the later of the two colliding elements. -/
def exElemSecond : PyElement :=
  { title := some (str "second"),
    links := some [{ title := some (str "repository"), url := some (str "HTTP://x.com/a/") }] }

/-! Helper lemmas about the lowercasing model. -/

theorem splitParams_of_no_semi {t : Str} (h : ';' ∉ t) : splitParams t = t := by
  unfold splitParams
  by_cases hc : '/' ∈ t
  · rw [if_pos hc]
    have hf : findIdxFrom t ';' (rlastSlashIdx t) = none := by
      unfold findIdxFrom
      have : (t.drop (rlastSlashIdx t)).findIdx? (fun d => d = ';') = none := by
        rw [List.findIdx?_eq_none_iff]
        intro x hx
        simp only [decide_eq_false_iff_not]
        intro he
        exact h (he ▸ List.Sublist.mem hx (List.drop_sublist _ t))
      rw [this]; rfl
    rw [hf]
  · rw [if_neg hc]
    have hf : t.findIdx? (fun c => c = ';') = none := by
      rw [List.findIdx?_eq_none_iff]
      intro x hx
      simp only [decide_eq_false_iff_not]
      intro he
      exact h (he ▸ hx)
    rw [hf]

theorem mem_dedup_aux (l : List Str) (acc : List Str) (k : Str) :
    k ∈ l.foldl (fun acc k => if k ∈ acc then acc else acc ++ [k]) acc ↔ k ∈ acc ∨ k ∈ l := by
  induction l generalizing acc with
  | nil => simp
  | cons x l ih =>
    show k ∈ l.foldl _ (if x ∈ acc then acc else acc ++ [x]) ↔ _
    rw [ih]
    by_cases hx : x ∈ acc
    · rw [if_pos hx]
      constructor
      · rintro (h | h)
        · exact Or.inl h
        · exact Or.inr (List.mem_cons_of_mem x h)
      · rintro (h | h)
        · exact Or.inl h
        · rcases List.mem_cons.mp h with h | h
          · exact Or.inl (h ▸ hx)
          · exact Or.inr h
    · rw [if_neg hx]
      simp only [List.mem_append, List.mem_singleton, List.mem_cons]
      tauto

theorem mem_pyDedupKeys {kinds : List Str} {k : Str} : k ∈ pyDedupKeys kinds ↔ k ∈ kinds := by
  unfold pyDedupKeys
  rw [mem_dedup_aux]
  simp

theorem length_dedup_aux (l : List Str) (acc : List Str) :
    (l.foldl (fun acc k => if k ∈ acc then acc else acc ++ [k]) acc).length ≤
      acc.length + l.length := by
  induction l generalizing acc with
  | nil => simp
  | cons x l ih =>
    show (l.foldl _ (if x ∈ acc then acc else acc ++ [x])).length ≤ _
    calc (l.foldl _ (if x ∈ acc then acc else acc ++ [x])).length
        ≤ (if x ∈ acc then acc else acc ++ [x]).length + l.length := ih _
      _ ≤ acc.length + (x :: l).length := by
          by_cases hx : x ∈ acc
          · rw [if_pos hx]; simp only [List.length_cons]; omega
          · rw [if_neg hx]
            simp only [List.length_append, List.length_cons, List.length_nil]
            omega

theorem length_pyDedupKeys_le (kinds : List Str) :
    (pyDedupKeys kinds).length ≤ kinds.length := by
  have := length_dedup_aux kinds []
  simpa using this

theorem pySetItem_map_keys (keys : List Str) (g : Str → Bool) (t : Str) (ht : t ∈ keys) :
    pySetItem (keys.map (fun k => (k, g k))) t true =
      keys.map (fun k => (k, if k = t then true else g k)) := by
  unfold pySetItem
  rw [if_pos (by simpa [List.map_map, Function.comp] using ht)]
  rw [List.map_map]
  apply List.map_congr_left
  intro a _
  by_cases ha : a = t
  · simp [ha]
  · simp [ha]

theorem check_links_fold (L : List Link) (kinds : List Str) (g : Str → Bool) :
    L.foldl
      (fun d link =>
        match link.title with
        | some t => if t ∈ kinds then pySetItem d t true else d
        | none => d)
      ((pyDedupKeys kinds).map (fun k => (k, g k))) =
    (pyDedupKeys kinds).map
      (fun k => (k, g k || L.any (fun link => link.title = some k))) := by
  induction L generalizing g with
  | nil => simp
  | cons link L ih =>
    cases hT : link.title with
    | none =>
      simp only [List.foldl_cons, hT]
      rw [ih g]
      apply List.map_congr_left
      intro a _
      simp [hT]
    | some t =>
      simp only [List.foldl_cons, hT]
      by_cases htk : t ∈ kinds
      · rw [if_pos htk, pySetItem_map_keys _ g t (mem_pyDedupKeys.mpr htk)]
        rw [ih (fun k => if k = t then true else g k)]
        apply List.map_congr_left
        intro a _
        by_cases ha : a = t
        · subst ha
          simp [hT]
        · simp [hT, ha, Ne.symm ha]
      · rw [if_neg htk]
        rw [ih g]
        apply List.map_congr_left
        intro a hak
        have hat : t ≠ a := fun he => htk (he ▸ mem_pyDedupKeys.mp hak)
        simp [hT, hat]

theorem check_element_links_eq (e : PyElement) (kinds : List Str) :
    check_element_links e kinds = (pyDedupKeys kinds).map (fun k => (k, hasLinkB e k)) := by
  unfold check_element_links hasLinkB
  have := check_links_fold (linksOf e) kinds (fun _ => false)
  simpa using this

/-! Projection lemmas for the matched-branch scorer. -/

theorem scoreMatched_total (e : PyElement) (u : Str) (sel : List Str) :
    (scoreMatched e u sel).total = sel.length := rfl

theorem scoreMatched_status (e : PyElement) (u : Str) (sel : List Str) :
    (scoreMatched e u sel).status =
      (if (scoreMatched e u sel).present = sel.length then str "Complete"
       else str "Incomplete") := rfl

theorem scoreMatched_progress (e : PyElement) (u : Str) (sel : List Str) :
    (scoreMatched e u sel).progress =
      (if sel.length > 0
       then ((scoreMatched e u sel).present : ℚ) / (sel.length : ℚ) * 100
       else 0) := rfl

theorem scoreMatched_present_def (e : PyElement) (u : Str) (sel : List Str) :
    (scoreMatched e u sel).present =
      ((aliasedLinkInfo e sel).filter (fun p => p.2 && decide (p.1 ∈ sel))).length := rfl

theorem length_aliasedLinkInfo_le (e : PyElement) (sel : List Str) :
    (aliasedLinkInfo e sel).length ≤ sel.length := by
  have hinfo := check_element_links_eq e sel
  have hbase : (check_element_links e sel).length ≤ sel.length := by
    calc (check_element_links e sel).length
        = (pyDedupKeys sel).length := by rw [hinfo]; simp
      _ ≤ sel.length := length_pyDedupKeys_le sel
  unfold aliasedLinkInfo
  cases hl : pyLookup (check_element_links e sel) (str "monitoring") with
  | none => exact hbase
  | some b =>
    cases b with
    | false => exact hbase
    | true =>
      by_cases hm : str "monitor" ∈ sel
      · rw [if_pos hm]
        rw [hinfo, pySetItem_map_keys _ _ _ (mem_pyDedupKeys.mpr hm)]
        calc ((pyDedupKeys sel).map
              (fun k => (k, if k = str "monitor" then true else hasLinkB e k))).length
            = (pyDedupKeys sel).length := by simp
          _ ≤ sel.length := length_pyDedupKeys_le sel
      · rw [if_neg hm]
        exact hbase

theorem scoreMatched_present_le (e : PyElement) (u : Str) (sel : List Str) :
    (scoreMatched e u sel).present ≤ sel.length := by
  rw [scoreMatched_present_def]
  calc ((aliasedLinkInfo e sel).filter (fun p => p.2 && decide (p.1 ∈ sel))).length
      ≤ (aliasedLinkInfo e sel).length := List.length_filter_le _ _
    _ ≤ sel.length := length_aliasedLinkInfo_le e sel

/-- Every record of `progress_data` is either a matched score or the literal
`Not mapped` record. -/
theorem mem_progressData {elements : List PyElement} {csv : CsvData} {sel : List Str}
    {r : ScoreRec} (hr : r ∈ progressData elements csv sel) :
    (∃ m ∈ match_repositories elements csv,
      r = scoreMatched m.c4_element (rowGet csv m.csv_repo (str "url") []) sel) ∨
    (r.progress = 0 ∧ r.present = 0 ∧ r.total = 0 ∧ r.status = str "Not mapped" ∧
      r.element = str "Not mapped in C4") := by
  rcases List.mem_append.mp hr with h | h
  · rcases List.mem_map.mp h with ⟨m, hm, rfl⟩
    exact Or.inl ⟨m, hm, rfl⟩
  · right
    cases hc : findUrlColumn csv with
    | none => rw [hc] at h; cases h
    | some urlCol =>
      rw [hc] at h
      rcases List.mem_filterMap.mp h with ⟨row, _, hsome⟩
      split at hsome
      · rw [Option.some_inj] at hsome
        subst hsome
        exact ⟨rfl, rfl, rfl, rfl, rfl⟩
      · cases hsome

/-- C8: scoring never divides by zero — an empty link-kind selection yields
progress 0 — and every progress percentage, of the matched scorer and of every
record of the assembled progress data, lies within [0, 100]. -/
theorem spec_C8_progress_bounds : ∀ (e : PyElement) (u : Str) (sel : List Str),
    (sel = [] → (scoreMatched e u sel).progress = 0) ∧
    (0 ≤ (scoreMatched e u sel).progress ∧ (scoreMatched e u sel).progress ≤ 100) ∧
    (∀ (elements : List PyElement) (csv : CsvData) (r : ScoreRec),
      r ∈ progressData elements csv sel → 0 ≤ r.progress ∧ r.progress ≤ 100) := by
  have hbounds : ∀ (e : PyElement) (u : Str) (sel : List Str),
      0 ≤ (scoreMatched e u sel).progress ∧ (scoreMatched e u sel).progress ≤ 100 := by
    intro e u sel
    rw [scoreMatched_progress]
    by_cases ht : sel.length > 0
    · rw [if_pos ht]
      have hple : ((scoreMatched e u sel).present : ℚ) ≤ (sel.length : ℚ) := by
        exact_mod_cast scoreMatched_present_le e u sel
      have htQ : (0 : ℚ) < (sel.length : ℚ) := by exact_mod_cast ht
      constructor
      · positivity
      · have hdiv : ((scoreMatched e u sel).present : ℚ) / (sel.length : ℚ) ≤ 1 :=
          (div_le_one htQ).mpr hple
        calc ((scoreMatched e u sel).present : ℚ) / (sel.length : ℚ) * 100 ≤ 1 * 100 :=
            mul_le_mul_of_nonneg_right hdiv (by norm_num)
          _ = 100 := by norm_num
    · rw [if_neg ht]
      norm_num
  intro e u sel
  refine ⟨?_, hbounds e u sel, ?_⟩
  · intro hsel
    subst hsel
    rw [scoreMatched_progress]
    simp
  · intro elements csv r hr
    rcases mem_progressData hr with ⟨m, _, rfl⟩ | ⟨h0, _⟩
    · exact hbounds _ _ _
    · rw [h0]
      norm_num

/-- C8, witness: the bound theorem applied at a concrete element, URL and
selection, discharging the inner implications at `sel = []` and at a concrete
progress-data membership. -/
theorem spec_C8_witness :
    (scoreMatched exElemOrders (str "u") []).progress = 0 ∧
    (0 ≤ (scoreMatched exElemOrders (str "u") [str "repository"]).progress ∧
      (scoreMatched exElemOrders (str "u") [str "repository"]).progress ≤ 100) := by
  constructor
  · exact (spec_C8_progress_bounds exElemOrders (str "u") []).1 rfl
  · exact (spec_C8_progress_bounds exElemOrders (str "u") [str "repository"]).2.1

/-- C2, counterexample: an element whose only link is titled `"monitoring"`,
scored with `selected_link_kinds = ["monitor"]`, is NOT counted as present —
the alias guard `'monitoring' in link_info` fails because the flag dictionary
only holds the selected kinds — so the element scores 0 of 1, Incomplete. -/
theorem spec_C2_counterexample :
    (scoreMatched exElemMonitoring [] [str "monitor"]).present = 0 ∧
    (scoreMatched exElemMonitoring [] [str "monitor"]).total = 1 ∧
    (scoreMatched exElemMonitoring [] [str "monitor"]).status = str "Incomplete" ∧
    (scoreMatched exElemMonitoring [] [str "monitor"]).status ≠ str "Complete" := by
  decide

/-- C2 (amended): for every matched element with a `"monitoring"` link and no
`"monitor"` link, the alias only fires when `"monitoring"` itself is among
`selected_link_kinds`: with `["monitoring", "monitor"]` the element scores
2 of 2 and Complete (monitor forced true by the alias), while with
`["monitor"]` alone it scores 0 of 1 and Incomplete. -/
theorem spec_C2_amended (e : PyElement) (u : Str)
    (hmon : hasLinkB e (str "monitoring") = true)
    (hnomon : hasLinkB e (str "monitor") = false) :
    (scoreMatched e u [str "monitoring", str "monitor"]).present = 2 ∧
    (scoreMatched e u [str "monitoring", str "monitor"]).total = 2 ∧
    (scoreMatched e u [str "monitoring", str "monitor"]).status = str "Complete" ∧
    (scoreMatched e u [str "monitor"]).present = 0 ∧
    (scoreMatched e u [str "monitor"]).total = 1 ∧
    (scoreMatched e u [str "monitor"]).status = str "Incomplete" := by
  have h2 : check_element_links e [str "monitoring", str "monitor"] =
      [(str "monitoring", true), (str "monitor", false)] := by
    rw [check_element_links_eq]
    have hk : pyDedupKeys [str "monitoring", str "monitor"] =
        [str "monitoring", str "monitor"] := by decide
    rw [hk]
    simp [hmon, hnomon]
  have h1 : check_element_links e [str "monitor"] = [(str "monitor", false)] := by
    rw [check_element_links_eq]
    have hk : pyDedupKeys [str "monitor"] = [str "monitor"] := by decide
    rw [hk]
    simp [hnomon]
  have ha2 : aliasedLinkInfo e [str "monitoring", str "monitor"] =
      [(str "monitoring", true), (str "monitor", true)] := by
    unfold aliasedLinkInfo
    rw [h2]
    decide
  have ha1 : aliasedLinkInfo e [str "monitor"] = [(str "monitor", false)] := by
    unfold aliasedLinkInfo
    rw [h1]
    decide
  refine ⟨?_, rfl, ?_, ?_, rfl, ?_⟩
  · rw [scoreMatched_present_def, ha2]; decide
  · rw [scoreMatched_status, scoreMatched_present_def, ha2]; decide
  · rw [scoreMatched_present_def, ha1]; decide
  · rw [scoreMatched_status, scoreMatched_present_def, ha1]; decide

/-- C2, witness: the amended alias behaviour at the concrete monitoring-only
element. -/
theorem spec_C2_witness :
    (scoreMatched exElemMonitoring [] [str "monitoring", str "monitor"]).status =
      str "Complete" ∧
    (scoreMatched exElemMonitoring [] [str "monitor"]).status = str "Incomplete" :=
  ⟨(spec_C2_amended exElemMonitoring [] (by decide) (by decide)).2.2.1,
   (spec_C2_amended exElemMonitoring [] (by decide) (by decide)).2.2.2.2.2⟩

/-- C3, counterexample: with an empty `selected_link_kinds`, the scorer sets
status Complete (0 of 0 satisfies `present_links == total_selected`), yet the
claimed right-hand side `present = selected ∧ selected > 0` is false — the
claimed equivalence fails at this input. -/
theorem spec_C3_counterexample :
    (scoreMatched ({} : PyElement) [] []).status = str "Complete" ∧
    ¬((scoreMatched ({} : PyElement) [] []).present =
        (scoreMatched ({} : PyElement) [] []).total ∧
      0 < (scoreMatched ({} : PyElement) [] []).total) := by
  decide

/-- C3 (amended): for every matched pair and selection, status is Complete iff
`present_link_count = selected_link_count` — including the vacuous empty
selection, where 0 = 0 yields Complete — and Incomplete otherwise. -/
theorem spec_C3_amended (e : PyElement) (u : Str) (sel : List Str) :
    ((scoreMatched e u sel).status = str "Complete" ↔
      (scoreMatched e u sel).present = (scoreMatched e u sel).total) ∧
    ((scoreMatched e u sel).status = str "Incomplete" ↔
      (scoreMatched e u sel).present ≠ (scoreMatched e u sel).total) := by
  rw [scoreMatched_total, scoreMatched_status]
  by_cases h : (scoreMatched e u sel).present = sel.length
  · rw [if_pos h]
    constructor
    · exact ⟨fun _ => h, fun _ => rfl⟩
    · constructor
      · intro hC; exact absurd hC (by decide)
      · intro hne; exact absurd h hne
  · rw [if_neg h]
    constructor
    · constructor
      · intro hC; exact absurd hC (by decide)
      · intro heq; exact absurd heq h
    · exact ⟨fun _ => h, fun _ => rfl⟩

/-- C3, witness: the amended status equivalence applied at a concrete element
and selection where all selected links are present. -/
theorem spec_C3_witness :
    (scoreMatched exElemOrders [] [str "repository"]).status = str "Complete" :=
  (spec_C3_amended exElemOrders [] [str "repository"]).1.mpr (by decide)

/-! Extraction: mutation characterization and totality. -/

theorem processEntries_snd (m : List (Str × PyElement)) (kinds : List Str) :
    (processEntries m kinds).2 = m.map (fun p =>
      match p.2.kind with
      | some kd => if kd ∈ kinds then (p.1, { p.2 with id := some p.1 }) else p
      | none => p) := by
  induction m with
  | nil => rfl
  | cons p rest ih =>
    obtain ⟨k, e⟩ := p
    cases hk : e.kind with
    | none => simp [processEntries, hk, ih]
    | some kd =>
      by_cases hin : kd ∈ kinds
      · simp [processEntries, hk, hin, ih]
      · simp [processEntries, hk, hin, ih]

/-- C4, counterexample: `extract_elements` mutates its input document — after
extracting from a document whose service entry has no `id`, that entry has
been given `id := "a"` in place, so the document is no longer equal to the
original. -/
theorem spec_C4_counterexample :
    (extract_elements (some exDoc) [str "service"]).2 ≠ some exDoc ∧
    (extract_elements (some exDoc) [str "service"]).2 =
      some { elements := some [(str "a",
        { kind := some (str "service"), id := some (str "a") })] } := by
  decide

/-- C4 (amended): `extract` does mutate the document: every entry whose kind
is in `target_kinds` — whether the elements mapping sits at the top level or
under `specification` — gets its `id` field overwritten in place with its
mapping key; entries of other kinds (or without a kind) and all other
document content are left unchanged. -/
theorem spec_C4_amended (d : ArchDoc) (kinds : List Str) (m : List (Str × PyElement)) :
    (d.elements = some m →
      (extract_elements (some d) kinds).2 =
        some { d with elements := some (m.map (fun p =>
          match p.2.kind with
          | some kd => if kd ∈ kinds then (p.1, { p.2 with id := some p.1 }) else p
          | none => p)) }) ∧
    (∀ s : SpecificationObj, d.elements = none → d.specification = some s →
      s.elements = some m →
      (extract_elements (some d) kinds).2 =
        some { d with specification := some ⟨some (m.map (fun p =>
          match p.2.kind with
          | some kd => if kd ∈ kinds then (p.1, { p.2 with id := some p.1 }) else p
          | none => p))⟩ }) ∧
    (∀ p ∈ m, (∀ kd, p.2.kind = some kd → kd ∉ kinds) →
      (match p.2.kind with
        | some kd => if kd ∈ kinds then (p.1, { p.2 with id := some p.1 }) else p
        | none => p) = p) := by
  refine ⟨?_, ?_, ?_⟩
  · intro hm
    simp only [extract_elements, hm]
    rw [processEntries_snd]
  · intro s he hs hse
    simp only [extract_elements, he, hs, hse]
    rw [processEntries_snd]
  · intro p _ hnk
    cases hkd : p.2.kind with
    | none => rfl
    | some kd => simp [hnk kd hkd]

/-- C4, witness: the mutation characterization applied to both concrete
documents — the service entry at the top level and under `specification`. -/
theorem spec_C4_witness :
    ((extract_elements (some exDoc) [str "service"]).2 =
      some { exDoc with elements := some ([(str "a",
        ({ kind := some (str "service") } : PyElement))].map (fun p =>
          match p.2.kind with
          | some kd => if kd ∈ [str "service"] then (p.1, { p.2 with id := some p.1 }) else p
          | none => p)) }) ∧
    ((extract_elements (some exDocSpec) [str "service"]).2 =
      some { exDocSpec with specification := some ⟨some ([(str "b",
        ({ kind := some (str "service") } : PyElement))].map (fun p =>
          match p.2.kind with
          | some kd => if kd ∈ [str "service"] then (p.1, { p.2 with id := some p.1 }) else p
          | none => p))⟩ }) :=
  ⟨(spec_C4_amended exDoc [str "service"]
      [(str "a", { kind := some (str "service") })]).1 rfl,
   (spec_C4_amended exDocSpec [str "service"]
      [(str "b", { kind := some (str "service") })]).2.1
      ⟨some [(str "b", { kind := some (str "service") })]⟩ rfl rfl rfl⟩

/-! First-match characterization of `get_repository_url`. -/

theorem firstRepo_aux (L : List Link) :
    ((∀ l ∈ L, ¬(l.title = some (str "repository") ∧ l.url.isSome)) →
      L.findSome? (fun link =>
        if link.title = some (str "repository") ∧ link.url.isSome then link.url else none) =
        none) ∧
    (∀ (n : Nat) (l : Link),
      (∀ j (l' : Link), j < n → L.get? j = some l' →
        ¬(l'.title = some (str "repository") ∧ l'.url.isSome)) →
      L.get? n = some l →
      l.title = some (str "repository") → l.url.isSome →
      L.findSome? (fun link =>
        if link.title = some (str "repository") ∧ link.url.isSome then link.url else none) =
        l.url) := by
  induction L with
  | nil =>
    constructor
    · intro _; rfl
    · intro n l _ hget
      simp at hget
  | cons a L ih =>
    constructor
    · intro h
      rw [List.findSome?_cons]
      rw [if_neg (h a (List.mem_cons_self a L))]
      exact ih.1 (fun l hl => h l (List.mem_cons_of_mem a hl))
    · intro n l hprev hget htitle hurl
      cases n with
      | zero =>
        rw [List.get?_cons_zero, Option.some_inj] at hget
        subst hget
        rw [List.findSome?_cons, if_pos ⟨htitle, hurl⟩]
        rcases Option.isSome_iff_exists.mp hurl with ⟨v, hv⟩
        rw [hv]
      | succ n =>
        rw [List.get?_cons_succ] at hget
        have ha : ¬(a.title = some (str "repository") ∧ a.url.isSome) :=
          hprev 0 a (Nat.succ_pos n) List.get?_cons_zero
        rw [List.findSome?_cons, if_neg ha]
        exact ih.2 n l
          (fun j l' hj hg => hprev (j + 1) l' (Nat.succ_lt_succ hj)
            (by rw [List.get?_cons_succ]; exact hg))
          hget htitle hurl

/-- C5, counterexample: links titled `"repository"` with an empty `url` value
are NOT skipped, falsifying both clauses of the claim.  (i) On an element
whose only repository link carries the empty URL, no link with a non-empty
URL exists, so the claim demands null — but `get_repository_url` returns the
empty string, a non-null result.  (ii) On an element whose first repository
link carries the empty URL and whose second carries `"x"`, the first
non-empty-URL repository link is the second one, so the claim demands `"x"`
— but the function returns the first link's empty string. -/
theorem spec_C5_counterexample :
    (get_repository_url exElemOnlyEmptyRepoUrl = some [] ∧ some ([] : Str) ≠ none) ∧
    (get_repository_url exElemEmptyRepoUrl = some [] ∧
      some ([] : Str) ≠ some (str "x")) := by
  decide

/-- C5 (amended): `get_repository_url` returns the `url` value of the first
link titled exactly `"repository"` that carries a `url` field — that value may
be empty — and null when no repository link carries a `url` field at all
(links titled `"repository"` without a `url` field are skipped). -/
theorem spec_C5_amended (e : PyElement) :
    ((∀ l ∈ linksOf e, ¬(l.title = some (str "repository") ∧ l.url.isSome)) →
      get_repository_url e = none) ∧
    (∀ (n : Nat) (l : Link),
      (∀ j (l' : Link), j < n → (linksOf e).get? j = some l' →
        ¬(l'.title = some (str "repository") ∧ l'.url.isSome)) →
      (linksOf e).get? n = some l →
      l.title = some (str "repository") → l.url.isSome →
      get_repository_url e = l.url) :=
  firstRepo_aux (linksOf e)

/-- C5, witness: the amended contract applied at the element whose first
repository link carries the empty URL — the returned value is that empty
string. -/
theorem spec_C5_witness :
    get_repository_url exElemEmptyRepoUrl = some [] :=
  (spec_C5_amended exElemEmptyRepoUrl).2 0
    { title := some (str "repository"), url := some [] }
    (fun j _ hj _ => absurd hj (Nat.not_lt_zero j))
    (by decide) (by decide) (by decide)

/-- C9: (i) on a document with neither a top-level `elements` mapping nor a
`specification.elements` mapping, `extract` returns the empty sequence (the
function is total, so it cannot raise); (ii) when a top-level `elements`
mapping exists, the extracted sequence does not depend on `specification` —
`specification.elements` is not consulted. -/
theorem spec_C9_extract_fallback :
    (∀ (d : ArchDoc) (kinds : List Str), d.elements = none →
      (d.specification = none ∨
        ∃ s, d.specification = some s ∧ s.elements = none) →
      (extract_elements (some d) kinds).1 = []) ∧
    (∀ (d : ArchDoc) (kinds : List Str) (m : List (Str × PyElement))
        (s₁ s₂ : Option SpecificationObj), d.elements = some m →
      (extract_elements (some { d with specification := s₁ }) kinds).1 =
      (extract_elements (some { d with specification := s₂ }) kinds).1) := by
  constructor
  · intro d kinds he hs
    rcases hs with hs | ⟨s, hs, hse⟩
    · simp [extract_elements, he, hs]
    · simp [extract_elements, he, hs, hse]
  · intro d kinds m s₁ s₂ hm
    simp [extract_elements, hm]

/-- C9, witness: the fallback applied to the empty document, and the
independence from `specification` applied to the single-service document with
two different specification sub-objects. -/
theorem spec_C9_witness :
    (extract_elements (some ({} : ArchDoc)) [str "service"]).1 = [] ∧
    (extract_elements
      (some { exDoc with
              specification := some ⟨some [(str "z", { kind := some (str "service") })]⟩ })
      [str "service"]).1 =
    (extract_elements (some { exDoc with specification := none }) [str "service"]).1 :=
  ⟨spec_C9_extract_fallback.1 {} [str "service"] rfl (Or.inl rfl),
   spec_C9_extract_fallback.2 exDoc [str "service"]
     [(str "a", { kind := some (str "service") })]
     (some ⟨some [(str "z", { kind := some (str "service") })]⟩) none rfl⟩

/-! Last-wins characterization of the matcher's identity map. -/

theorem elementRepos_aux (es : List PyElement) (d : Str → Option PyElement) (k : Str) :
    (es.foldl (fun d e =>
      match get_repository_url e with
      | some u =>
        if u ≠ [] then (fun k => if k = normalizeUrl u then some e else d k) else d
      | none => d) d) k =
    (match lastRepoMatch es k with
      | some e => some e
      | none => d k) := by
  induction es generalizing d with
  | nil => rfl
  | cons e rest ih =>
    rw [List.foldl_cons, ih]
    have hL : lastRepoMatch (e :: rest) k = (match lastRepoMatch rest k with
      | some x => some x
      | none => match get_repository_url e with
        | some u => if u ≠ [] ∧ k = normalizeUrl u then some e else none
        | none => none) := rfl
    rw [hL]
    cases lastRepoMatch rest k with
    | some x => rfl
    | none =>
      cases hg : get_repository_url e with
      | none => simp [hg]
      | some u =>
        simp only [hg]
        by_cases hu : u = []
        · simp [hu]
        · rw [if_pos hu]
          by_cases hk : k = normalizeUrl u
          · simp [hu, hk]
          · simp [hu, hk]

theorem elementRepos_eq_lastRepoMatch (es : List PyElement) (k : Str) :
    elementRepos es k = lastRepoMatch es k := by
  unfold elementRepos
  rw [elementRepos_aux]
  cases lastRepoMatch es k <;> rfl

/-- Dissection of a matcher hit: a produced pair records a row of the CSV, a
URL column must have been found, the row's cell there is a nonempty string,
and the paired element is the one stored in the identity map under the cell's
normalized identity. -/
theorem mem_match_repositories_elim {elements : List PyElement} {csv : CsvData}
    {m : MatchPair} (hm : m ∈ match_repositories elements csv) :
    ∃ urlCol, findUrlColumn csv = some urlCol ∧ m.csv_repo ∈ csv.rows ∧
      ∃ u, getCell csv m.csv_repo urlCol = some u ∧ u ≠ [] ∧
        elementRepos elements (normalizeUrl u) = some m.c4_element := by
  unfold match_repositories at hm
  cases hc : findUrlColumn csv with
  | none => rw [hc] at hm; cases hm
  | some urlCol =>
    rw [hc] at hm
    rcases List.mem_filterMap.mp hm with ⟨row, hrow, hsome⟩
    cases hcell : getCell csv row urlCol with
    | none =>
      rw [hcell] at hsome
      have hred : (none : Option MatchPair) = some m := hsome
      cases hred
    | some cell =>
      rw [hcell] at hsome
      have hred : (if cell ≠ [] then
          (match elementRepos elements (normalizeUrl cell) with
            | some e => some (⟨row, e⟩ : MatchPair)
            | none => none)
        else none) = some m := hsome
      by_cases hne : cell ≠ []
      · rw [if_pos hne] at hred
        cases hrep : elementRepos elements (normalizeUrl cell) with
        | none =>
          rw [hrep] at hred
          have hred2 : (none : Option MatchPair) = some m := hred
          cases hred2
        | some e =>
          rw [hrep] at hred
          have hred2 : some (⟨row, e⟩ : MatchPair) = some m := hred
          rw [Option.some_inj] at hred2
          subst hred2
          exact ⟨urlCol, rfl, hrow, cell, hcell, hne, hrep⟩
      · rw [if_neg hne] at hred
        cases hred

/-- C10: every pair produced by the matcher pairs the row with the LAST
element of the element sequence exposing a truthy repository URL of the row's
normalized identity — later colliding elements overwrite earlier ones. -/
theorem spec_C10_last_wins (elements : List PyElement) (csv : CsvData) (m : MatchPair)
    (hm : m ∈ match_repositories elements csv) :
    ∃ urlCol u, findUrlColumn csv = some urlCol ∧
      getCell csv m.csv_repo urlCol = some u ∧ u ≠ [] ∧
      lastRepoMatch elements (normalizeUrl u) = some m.c4_element := by
  rcases mem_match_repositories_elim hm with ⟨urlCol, hc, _, u, hu, hne, hrep⟩
  refine ⟨urlCol, u, hc, hu, hne, ?_⟩
  rw [← elementRepos_eq_lastRepoMatch]
  exact hrep

/-- C10, witness: with two elements exposing the same normalized identity
`x.com/a` and a row whose URL normalizes to it, the produced pair carries the
second (later) element. -/
theorem spec_C10_witness :
    ∃ urlCol u, findUrlColumn exCsvLower = some urlCol ∧
      getCell exCsvLower ((⟨[str "https://x.com/a"], exElemSecond⟩ : MatchPair).csv_repo)
        urlCol = some u ∧ u ≠ [] ∧
      lastRepoMatch [exElemFirst, exElemSecond] (normalizeUrl u) =
        some ((⟨[str "https://x.com/a"], exElemSecond⟩ : MatchPair).c4_element) :=
  spec_C10_last_wins [exElemFirst, exElemSecond] exCsvLower
    ⟨[str "https://x.com/a"], exElemSecond⟩ (by decide)

/-! Counting infrastructure for the aggregate-counts claim. -/

theorem length_filterMap_eq_countP {α β : Type} (f : α → Option β) (l : List α) :
    (l.filterMap f).length = l.countP (fun a => (f a).isSome) := by
  induction l with
  | nil => rfl
  | cons a l ih =>
    rw [List.filterMap_cons, List.countP_cons]
    cases hf : f a with
    | none => simp [hf, ih]
    | some b => simp [hf, ih]

theorem countP_add_countP_of_not {α : Type} (l : List α) (p q : α → Bool)
    (h : ∀ x ∈ l, p x = !q x) : l.countP p + l.countP q = l.length := by
  induction l with
  | nil => rfl
  | cons a l ih =>
    have ha := h a (List.mem_cons_self a l)
    have ih' := ih (fun x hx => h x (List.mem_cons_of_mem a hx))
    cases hq : q a
    · have hp : p a = true := by rw [ha, hq]; rfl
      rw [List.countP_cons, List.countP_cons, hp, hq, if_pos rfl,
        if_neg (show ¬(false = true) by decide), List.length_cons]
      omega
    · have hp : p a = false := by rw [ha, hq]; rfl
      rw [List.countP_cons, List.countP_cons, hp, hq, if_pos rfl,
        if_neg (show ¬(false = true) by decide), List.length_cons]
      omega

theorem countStatus_cons (r : ScoreRec) (recs : List ScoreRec) (s : Str) :
    countStatus (r :: recs) s = (if r.status = s then 1 else 0) + countStatus recs s := by
  unfold countStatus
  rw [List.filter_cons]
  by_cases h : r.status = s
  · rw [if_pos (by simpa using h), if_pos h, List.length_cons]
    omega
  · rw [if_neg (by simpa using h), if_neg h]
    omega

theorem countStatus_three (recs : List ScoreRec) (sC sI sN : Str)
    (hcover : ∀ r ∈ recs, r.status = sC ∨ r.status = sI ∨ r.status = sN)
    (h1 : sC ≠ sI) (h2 : sC ≠ sN) (h3 : sI ≠ sN) :
    countStatus recs sC + countStatus recs sI + countStatus recs sN = recs.length := by
  induction recs with
  | nil => rfl
  | cons r recs ih =>
    have hr := hcover r (List.mem_cons_self r recs)
    have ih' := ih (fun x hx => hcover x (List.mem_cons_of_mem r hx))
    rw [countStatus_cons, countStatus_cons, countStatus_cons, List.length_cons]
    rcases hr with h | h | h
    · rw [if_pos h, if_neg (fun he => h1 (h.symm.trans he)),
        if_neg (fun he => h2 (h.symm.trans he))]
      omega
    · rw [if_neg (fun he => h1 (h.symm.trans he).symm), if_pos h,
        if_neg (fun he => h3 (h.symm.trans he))]
      omega
    · rw [if_neg (fun he => h2 (h.symm.trans he).symm),
        if_neg (fun he => h3 (h.symm.trans he).symm), if_pos h]
      omega

/-- A row whose nonempty URL cell hits the identity map contributes its raw
URL string to the matched-URLs list (column and matched set both keyed by the
literal lowercase `"url"` label). -/
theorem mem_matchedUrls_of_matched (elements : List PyElement) (csv : CsvData)
    (row : List Str) (u : Str) (e : PyElement)
    (hcol : findUrlColumn csv = some (str "url"))
    (hrow : row ∈ csv.rows)
    (hu : getCell csv row (str "url") = some u) (hne : u ≠ [])
    (hrep : elementRepos elements (normalizeUrl u) = some e) :
    u ∈ (match_repositories elements csv).map
      (fun m => rowGet csv m.csv_repo (str "url") []) := by
  apply List.mem_map.mpr
  refine ⟨⟨row, e⟩, ?_, ?_⟩
  · have hFM : (match getCell csv row (str "url") with
        | some cell =>
          if cell ≠ [] then
            (match elementRepos elements (normalizeUrl cell) with
              | some e => some (⟨row, e⟩ : MatchPair)
              | none => none)
          else none
        | none => none) = some (⟨row, e⟩ : MatchPair) := by
      rw [hu]
      show (if u ≠ [] then
          (match elementRepos elements (normalizeUrl u) with
            | some e => some (⟨row, e⟩ : MatchPair)
            | none => none)
        else none) = some (⟨row, e⟩ : MatchPair)
      rw [if_pos hne, hrep]
    show (⟨row, e⟩ : MatchPair) ∈ match_repositories elements csv
    unfold match_repositories
    rw [hcol]
    show (⟨row, e⟩ : MatchPair) ∈ csv.rows.filterMap (fun row =>
        match getCell csv row (str "url") with
        | some cell =>
          if cell ≠ [] then
            (match elementRepos elements (normalizeUrl cell) with
              | some e => some (⟨row, e⟩ : MatchPair)
              | none => none)
          else none
        | none => none)
    exact List.mem_filterMap.mpr ⟨row, hrow, hFM⟩
  · show rowGet csv row (str "url") [] = u
    unfold rowGet
    rw [hu]

/-- Conversely, every member of the matched-URLs list is a raw URL whose
normalized identity is present in the identity map. -/
theorem matched_of_mem_matchedUrls (elements : List PyElement) (csv : CsvData) (u : Str)
    (hcol : findUrlColumn csv = some (str "url"))
    (hmu : u ∈ (match_repositories elements csv).map
      (fun m => rowGet csv m.csv_repo (str "url") [])) :
    (elementRepos elements (normalizeUrl u)).isSome := by
  rcases List.mem_map.mp hmu with ⟨mp, hmp, hequ⟩
  rcases mem_match_repositories_elim hmp with ⟨urlCol, hc, _, u', hu', hne', hrep'⟩
  rw [hcol, Option.some_inj] at hc
  subst hc
  have hrg : rowGet csv mp.csv_repo (str "url") [] = u' := by
    unfold rowGet
    rw [hu']
  rw [hrg] at hequ
  subst hequ
  rw [hrep']
  rfl

/-- Under a lowercase `"url"` column and all-nonempty URL cells, every CSV row
contributes exactly one record to `progress_data`: matched rows are not also
listed as `Not mapped`, and no row is dropped. -/
theorem progressData_length (elements : List PyElement) (csv : CsvData) (selected : List Str)
    (hcol : findUrlColumn csv = some (str "url"))
    (hrows : ∀ row ∈ csv.rows, getCell csv row (str "url") ≠ none ∧
      getCell csv row (str "url") ≠ some []) :
    (progressData elements csv selected).length = csv.rows.length := by
  have hmr : match_repositories elements csv = csv.rows.filterMap (fun row =>
      match getCell csv row (str "url") with
      | some cell =>
        if cell ≠ [] then
          (match elementRepos elements (normalizeUrl cell) with
            | some e => some (⟨row, e⟩ : MatchPair)
            | none => none)
        else none
      | none => none) := by
    unfold match_repositories
    rw [hcol]
  have hpd : progressData elements csv selected =
      (match_repositories elements csv).map
        (fun m => scoreMatched m.c4_element (rowGet csv m.csv_repo (str "url") []) selected) ++
      csv.rows.filterMap (fun row =>
        if rowGet csv row (str "url") [] ≠ [] ∧
            rowGet csv row (str "url") [] ∉ (match_repositories elements csv).map
              (fun m => rowGet csv m.csv_repo (str "url") []) then
          some { repository := rowGet csv row (str "url") [],
                 element := str "Not mapped in C4", present := 0, total := 0,
                 progress := 0, status := str "Not mapped" }
        else none) := by
    unfold progressData
    rw [hcol]
  rw [hpd, List.length_append, List.length_map]
  nth_rewrite 1 [hmr]
  rw [length_filterMap_eq_countP, length_filterMap_eq_countP]
  apply countP_add_countP_of_not
  intro row hrow
  obtain ⟨hnn, hnemp⟩ := hrows row hrow
  obtain ⟨u, hu⟩ : ∃ u, getCell csv row (str "url") = some u := by
    cases hg : getCell csv row (str "url") with
    | none => exact absurd hg hnn
    | some a => exact ⟨a, rfl⟩
  have hne : u ≠ [] := fun h0 => hnemp (by rw [hu, h0])
  have hrg : rowGet csv row (str "url") [] = u := by
    unfold rowGet
    rw [hu]
  have hfm : (match getCell csv row (str "url") with
      | some cell =>
        if cell ≠ [] then
          (match elementRepos elements (normalizeUrl cell) with
            | some e => some (⟨row, e⟩ : MatchPair)
            | none => none)
        else none
      | none => none) = (match elementRepos elements (normalizeUrl u) with
        | some e => some (⟨row, e⟩ : MatchPair)
        | none => none) := by
    rw [hu]
    show (if u ≠ [] then
        (match elementRepos elements (normalizeUrl u) with
          | some e => some (⟨row, e⟩ : MatchPair)
          | none => none)
      else none) = (match elementRepos elements (normalizeUrl u) with
        | some e => some (⟨row, e⟩ : MatchPair)
        | none => none)
    rw [if_pos hne]
  show (match getCell csv row (str "url") with
      | some cell =>
        if cell ≠ [] then
          (match elementRepos elements (normalizeUrl cell) with
            | some e => some (⟨row, e⟩ : MatchPair)
            | none => none)
        else none
      | none => none).isSome =
    !(if rowGet csv row (str "url") [] ≠ [] ∧
          rowGet csv row (str "url") [] ∉ (match_repositories elements csv).map
            (fun m => rowGet csv m.csv_repo (str "url") []) then
        some { repository := rowGet csv row (str "url") [],
               element := str "Not mapped in C4", present := 0, total := 0,
               progress := 0, status := str "Not mapped" }
      else (none : Option ScoreRec)).isSome
  rw [hfm, hrg]
  cases hrep : elementRepos elements (normalizeUrl u) with
  | some e =>
    have hmu := mem_matchedUrls_of_matched elements csv row u e hcol hrow hu hne hrep
    rw [if_neg (fun hcon => hcon.2 hmu)]
    rfl
  | none =>
    have hnmu : u ∉ (match_repositories elements csv).map
        (fun m => rowGet csv m.csv_repo (str "url") []) := by
      intro hmu
      have h2 := matched_of_mem_matchedUrls elements csv u hcol hmu
      rw [hrep] at h2
      simp at h2
    rw [if_pos ⟨hne, hnmu⟩]
    rfl

/-- C1, counterexample: with the CSV's URL column named `"URL"` (uppercase,
which the column search accepts), the matched-URLs set is keyed by the literal
lowercase `'url'` label and stays empty, so the matched row is ALSO emitted as
`Not mapped`: the aggregate counts sum to 2 for a one-row table. -/
theorem spec_C1_counterexample :
    (assembleReport [exElemOrders] exCsvUpper [str "repository"] exFilterAll).2.1 +
    (assembleReport [exElemOrders] exCsvUpper [str "repository"] exFilterAll).2.2.1 +
    (assembleReport [exElemOrders] exCsvUpper [str "repository"] exFilterAll).2.2.2 = 2 ∧
    exCsvUpper.rows.length = 1 ∧ (2 : Nat) ≠ 1 := by
  decide

/-- C1 (amended): when the URL column is named exactly `"url"` (lowercase) and
every row's `url` cell is present and nonempty, the report's aggregate counts
satisfy `complete + incomplete + not_mapped = total rows`; and the aggregate
counts are computed over the unfiltered matched+unmatched universe — they are
identical under any two filter specifications. -/
theorem spec_C1_amended (elements : List PyElement) (csv : CsvData) (selected : List Str)
    (f g : FilterSpec)
    (hcol : findUrlColumn csv = some (str "url"))
    (hrows : ∀ row ∈ csv.rows, getCell csv row (str "url") ≠ none ∧
      getCell csv row (str "url") ≠ some []) :
    ((assembleReport elements csv selected f).2.1 +
     (assembleReport elements csv selected f).2.2.1 +
     (assembleReport elements csv selected f).2.2.2 = csv.rows.length) ∧
    (assembleReport elements csv selected f).2 = (assembleReport elements csv selected g).2 := by
  constructor
  · show countStatus (progressData elements csv selected) (str "Complete") +
        countStatus (progressData elements csv selected) (str "Incomplete") +
        countStatus (progressData elements csv selected) (str "Not mapped") =
        csv.rows.length
    have hcover : ∀ r ∈ progressData elements csv selected,
        r.status = str "Complete" ∨ r.status = str "Incomplete" ∨
          r.status = str "Not mapped" := by
      intro r hr
      rcases mem_progressData hr with ⟨m, _, rfl⟩ | ⟨_, _, _, hN, _⟩
      · rw [scoreMatched_status]
        by_cases hps : (scoreMatched m.c4_element
            (rowGet csv m.csv_repo (str "url") []) selected).present = selected.length
        · left; rw [if_pos hps]
        · right; left; rw [if_neg hps]
      · right; right; exact hN
    have h3 := countStatus_three (progressData elements csv selected)
      (str "Complete") (str "Incomplete") (str "Not mapped") hcover
      (by decide) (by decide) (by decide)
    rw [h3]
    exact progressData_length elements csv selected hcol hrows
  · rfl

/-- C1, witness: the amended count identity and filter-independence at a
concrete two-row CSV with a lowercase `url` column, one matched and one
unmatched row, compared across two different filter specifications. -/
theorem spec_C1_witness :
    ((assembleReport [exElemOrders] exCsvLower [str "repository"] exFilterAll).2.1 +
     (assembleReport [exElemOrders] exCsvLower [str "repository"] exFilterAll).2.2.1 +
     (assembleReport [exElemOrders] exCsvLower [str "repository"] exFilterAll).2.2.2 =
       exCsvLower.rows.length) ∧
    (assembleReport [exElemOrders] exCsvLower [str "repository"] exFilterAll).2 =
      (assembleReport [exElemOrders] exCsvLower [str "repository"]
        { exFilterAll with status := str "Complete" }).2 :=
  spec_C1_amended [exElemOrders] exCsvLower [str "repository"] exFilterAll
    { exFilterAll with status := str "Complete" } (by decide) (by decide)

end C4A
